import Mathlib

/-!
Verification development for the acpx per-session queue-owner runtime.

The definitions below are a shallow embedding of the coordination subsystem:
the TTL normalization and owner main loop (src/session-owner-runtime.ts), the
queue IPC client response machine and connection retry loop
(src/queue-ipc-client.ts), the spawn-or-attach loop (src/session-owner-spawn.ts)
and the output formatters (src/output.ts).  The turn controller
(src/queue-owner-turn-controller.ts) and the lease store
(src/queue-lease-store.ts) are not part of the source snapshot, so they are
modelled from the specification, as marked on each definition.
-/

namespace Acpx

/-- JavaScript number inputs, as far as the TTL normalization distinguishes
them: `NaN`, the two infinities, and finite values (modelled as rationals). -/
inductive JsNumber where
  | nan
  | posInf
  | negInf
  | finite (q : Rat)
deriving DecidableEq, Repr

/-- JavaScript `Math.round`: round half toward positive infinity. -/
def jsMathRound (q : Rat) : Int := ⌊q + 1 / 2⌋

/-- Default owner TTL in milliseconds (src/session-owner-runtime.ts,
`DEFAULT_QUEUE_OWNER_TTL_MS`). -/
def DEFAULT_QUEUE_OWNER_TTL_MS : Int := 300000

/-- TTL normalization (src/session-owner-runtime.ts, `normalizeQueueOwnerTtlMs`):
`null`/`undefined` inputs (here `none`), non-finite inputs and negative inputs
map to the default; any other finite input is rounded with `Math.round`. -/
def normalizeQueueOwnerTtlMs : Option JsNumber → Int
  | none => DEFAULT_QUEUE_OWNER_TTL_MS
  | some .nan => DEFAULT_QUEUE_OWNER_TTL_MS
  | some .posInf => DEFAULT_QUEUE_OWNER_TTL_MS
  | some .negInf => DEFAULT_QUEUE_OWNER_TTL_MS
  | some (.finite q) =>
    if q < 0 then DEFAULT_QUEUE_OWNER_TTL_MS else jsMathRound q

/-- Idle wait handed to `owner.nextTask` (src/session-owner-runtime.ts line
201): a TTL of `0` means no bound (`undefined`), otherwise `Math.max(0, ttl)`. -/
def ownerIdleWaitMs (ttl : Int) : Option Int :=
  if ttl = 0 then none else some (max 0 ttl)

/-- What the owner main loop does after `nextTask` returns. -/
inductive OwnerLoopStep where
  | shutdown
  | runTurn
deriving DecidableEq, Repr

/-- Owner main-loop reaction to the value returned by `nextTask`
(src/session-owner-runtime.ts lines 204-212): a null task breaks the loop,
any task is run as a prompt turn. -/
def ownerLoopOnTask {α : Type} : Option α → OwnerLoopStep
  | none => .shutdown
  | some _ => .runTurn

/-- Lifecycle states of the turn controller (spec section 3, `TurnState`). -/
inductive TurnState where
  | idle
  | starting
  | active
  | closing
deriving DecidableEq, Repr

/-- Modelled from the spec: the active-session controller handle installed on
the turn controller (src/queue-owner-turn-controller.ts is missing from the
snapshot).  `promptActive` is the value its `hasActivePrompt()` reports and
`cancelResult` is what `requestCancelActivePrompt()` resolves to. -/
structure ActiveSessionController where
  promptActive : Bool
  cancelResult : Bool
deriving DecidableEq, Repr

/-- Modelled from the spec: the state carried by `QueueOwnerTurnController`
(src/queue-owner-turn-controller.ts is missing from the snapshot; spec
sections 3 and 4.E).  `pendingCancel` is the `PendingCancel` slot,
`hasController`/`promptActive`/`cancelResult` describe the installed active
controller, and `adapterCancels` counts adapter-level cancel deliveries. -/
structure QueueOwnerTurnController where
  lifecycle : TurnState
  pendingCancel : Bool
  hasController : Bool
  promptActive : Bool
  cancelResult : Bool
  adapterCancels : Nat
deriving DecidableEq, Repr

namespace QueueOwnerTurnController

/-- Modelled from the spec: `hasActivePrompt()` is false while no active
controller is installed, and otherwise reports the controller's value. -/
def hasActivePrompt (s : QueueOwnerTurnController) : Bool :=
  s.hasController && s.promptActive

/-- Modelled from the spec: the controller state at owner startup. -/
def init : QueueOwnerTurnController :=
  { lifecycle := .idle, pendingCancel := false, hasController := false,
    promptActive := false, cancelResult := false, adapterCancels := 0 }

/-- Modelled from the spec: `beginTurn` moves `idle` to `starting`
(spec section 4.E state table). -/
def beginTurn (s : QueueOwnerTurnController) : QueueOwnerTurnController :=
  if s.lifecycle = .idle then { s with lifecycle := .starting } else s

/-- Modelled from the spec: `markPromptActive` moves `starting` to `active`
and is idempotent on `active` (spec section 4.E state table). -/
def markPromptActive (s : QueueOwnerTurnController) : QueueOwnerTurnController :=
  if s.lifecycle = .starting then { s with lifecycle := .active } else s

/-- Modelled from the spec: `endTurn` returns `starting`/`active` to `idle`;
the `PendingCancel` slot is cleared on turn termination (spec section 3). -/
def endTurn (s : QueueOwnerTurnController) : QueueOwnerTurnController :=
  match s.lifecycle with
  | .starting => { s with lifecycle := .idle, pendingCancel := false }
  | .active => { s with lifecycle := .idle, pendingCancel := false }
  | _ => s

/-- Modelled from the spec: `beginClosing` moves any state to `closing`. -/
def beginClosing (s : QueueOwnerTurnController) : QueueOwnerTurnController :=
  { s with lifecycle := .closing }

/-- Modelled from the spec: `setActiveController` installs the ACP-client-level
handle to the in-flight prompt. -/
def setActiveController (s : QueueOwnerTurnController)
    (c : ActiveSessionController) : QueueOwnerTurnController :=
  { s with hasController := true, promptActive := c.promptActive,
           cancelResult := c.cancelResult }

/-- Modelled from the spec: `clearActiveController` removes the handle. -/
def clearActiveController (s : QueueOwnerTurnController) :
    QueueOwnerTurnController :=
  { s with hasController := false, promptActive := false }

/-- Modelled from the spec: `applyPendingCancel` delivers a recorded cancel to
the adapter when `hasActivePrompt()` is true, clearing the pending slot, and
returns true iff it actually delivered (spec section 4.E). -/
def applyPendingCancel (s : QueueOwnerTurnController) :
    Bool × QueueOwnerTurnController :=
  if s.pendingCancel && s.hasActivePrompt then
    (true, { s with pendingCancel := false, adapterCancels := s.adapterCancels + 1 })
  else
    (false, s)

/-- Modelled from the spec: `requestCancel` (spec section 4.E state table).
In `idle`/`starting` the cancel is accepted and recorded as pending; in
`active` it is delivered through the active controller (which requires
`hasActivePrompt()`, per the deferred-cancel paragraph) returning the delivery
result; `closing` refuses with false. -/
def requestCancel (s : QueueOwnerTurnController) :
    Bool × QueueOwnerTurnController :=
  match s.lifecycle with
  | .closing => (false, s)
  | .idle => (true, { s with pendingCancel := true })
  | .starting => (true, { s with pendingCancel := true })
  | .active =>
    if s.hasActivePrompt then
      (s.cancelResult,
        { s with pendingCancel := false, adapterCancels := s.adapterCancels + 1 })
    else
      (true, { s with pendingCancel := true })

end QueueOwnerTurnController

/-- Runtime wrapper `controlHandlers.cancelPrompt`
(src/session-owner-runtime.ts lines 139-146): `requestCancel`, and when
accepted, `applyPendingCancel`, reporting acceptance. -/
def cancelPromptHandler (s : QueueOwnerTurnController) :
    Bool × QueueOwnerTurnController :=
  match s.requestCancel with
  | (true, s1) => (true, s1.applyPendingCancel.2)
  | (false, s1) => (false, s1)

/-- Runtime callback `onClientAvailable` (src/session-owner-runtime.ts lines
119-122): install the controller, then apply any pending cancel. -/
def onClientAvailable (c : ActiveSessionController)
    (s : QueueOwnerTurnController) : QueueOwnerTurnController :=
  ((s.setActiveController c).applyPendingCancel).2

/-- Runtime callback `onClientClosed` (src/session-owner-runtime.ts lines
123-125). -/
def onClientClosed (s : QueueOwnerTurnController) : QueueOwnerTurnController :=
  s.clearActiveController

/-- Runtime callback `onPromptActive` (src/session-owner-runtime.ts lines
126-129): the adapter has acknowledged the prompt, so `hasActivePrompt()`
starts reporting true, `markPromptActive` fires, and any pending cancel is
applied. -/
def onPromptActive (s : QueueOwnerTurnController) : QueueOwnerTurnController :=
  (({ s with promptActive := true }.markPromptActive).applyPendingCancel).2

/-- Events that can hit the turn controller between `beginTurn` and `endTurn`. -/
inductive TurnMidEvent where
  | clientAvailable (c : ActiveSessionController)
  | clientClosed
  | promptAck
  | cancelRequest
  | applyPending
deriving DecidableEq, Repr

/-- One mid-turn event applied to the controller state. -/
def turnMidStep (s : QueueOwnerTurnController) :
    TurnMidEvent → QueueOwnerTurnController
  | .clientAvailable c => onClientAvailable c s
  | .clientClosed => onClientClosed s
  | .promptAck => onPromptActive s
  | .cancelRequest => (cancelPromptHandler s).2
  | .applyPending => s.applyPendingCancel.2

/-- A mid-turn interleaving applied left to right. -/
def runTurnMid (s : QueueOwnerTurnController) (evs : List TurnMidEvent) :
    QueueOwnerTurnController :=
  evs.foldl turnMidStep s

/-- `runPromptTurn` (src/session-owner-runtime.ts lines 130-137):
`beginTurn()`, execute the task (whose controller interactions are the event
list and whose completion is `outcome`), and `endTurn()` in a finally block,
on success and failure alike. -/
def runPromptTurn (evs : List TurnMidEvent) (outcome : Except Unit Unit)
    (s : QueueOwnerTurnController) :
    Except Unit Unit × QueueOwnerTurnController :=
  (outcome, (runTurnMid s.beginTurn evs).endTurn)

/-- The controller state of a freshly begun turn. -/
def turnStartState : QueueOwnerTurnController :=
  QueueOwnerTurnController.init.beginTurn

/-- Guard on a mid-turn interleaving: every cancel request is either the first
adapter-relevant one (no adapter cancel issued yet) or arrives while the
pending slot is still set — the scope of the deferred-cancel claim. -/
def cancelRequestsGuarded :
    QueueOwnerTurnController → List TurnMidEvent → Bool
  | _, [] => true
  | s, e :: rest =>
    (e != .cancelRequest || (s.pendingCancel || s.adapterCancels == 0)) &&
      cancelRequestsGuarded (turnMidStep s e) rest

/-- Modelled from the spec: a queue-owner lease, the single-line JSON lock
file recording the owner's pid (src/queue-lease-store.ts is missing from the
snapshot; spec sections 3 and 4.A).  Only the `pid` field matters for the
mutual-exclusion protocol. -/
structure QueueOwnerLease where
  pid : Nat
deriving DecidableEq, Repr

/-- Modelled from the spec: `tryAcquire` (spec section 4.A).  It performs an
atomic exclusive create of the lock file (fails if it exists); when the file
exists but its recorded pid is not alive, the caller reclaims by unlinking and
retrying once.  `alive` is the signal-0 liveness probe; the lock file for the
SessionKey is the `Option QueueOwnerLease`.  Attempts are interleaved at the
granularity of the atomic exclusive create. -/
def tryAcquireQueueOwnerLease (alive : Nat → Bool) (pid : Nat)
    (lockFile : Option QueueOwnerLease) :
    Option QueueOwnerLease × Option QueueOwnerLease :=
  match lockFile with
  | none => (some ⟨pid⟩, some ⟨pid⟩)
  | some l =>
    if alive l.pid then (none, some l)
    else (some ⟨pid⟩, some ⟨pid⟩)

/-- A sequence of `tryAcquire` attempts by the given pids against one
SessionKey lock file, returning each attempt's result and the final file. -/
def tryAcquireAll (alive : Nat → Bool) :
    List Nat → Option QueueOwnerLease →
    List (Option QueueOwnerLease) × Option QueueOwnerLease
  | [], lockFile => ([], lockFile)
  | p :: ps, lockFile =>
    let r := tryAcquireQueueOwnerLease alive p lockFile
    let rest := tryAcquireAll alive ps r.2
    (r.1 :: rest.1, rest.2)

/-- Error payload of an owner `error` message as the client sees it after
parsing (src/queue-ipc-client.ts lines 203-231): `code` and `origin` are
optional on the wire and defaulted by the client. -/
structure OwnerErrorPayload where
  code : Option String
  detailCode : Option String
  origin : Option String
  message : String
  retryable : Bool
deriving DecidableEq, Repr

/-- Final result payload of a prompt (`result` message). -/
structure PromptResultPayload where
  stopReason : String
deriving DecidableEq, Repr

/-- Body of a parsed owner message on the prompt channel
(src/queue-messages.ts message types as consumed by
src/queue-ipc-client.ts).  `controlResult` stands for the control-terminal
messages (`cancel_result` etc.), which are unexpected on a prompt stream. -/
inductive QueueOwnerMsgBody where
  | accepted
  | errorMsg (p : OwnerErrorPayload)
  | sessionUpdate (note : String)
  | clientOperation (op : String)
  | done (stopReason : String)
  | result (r : PromptResultPayload)
  | controlResult
deriving DecidableEq, Repr

/-- One line received on the prompt socket: invalid JSON, a JSON value that
`parseQueueOwnerMessage` refuses, or a parsed message tagged with its
requestId. -/
inductive QueueClientLine where
  | invalidJson
  | unparsable
  | msg (requestId : Nat) (body : QueueOwnerMsgBody)
deriving DecidableEq, Repr

/-- Socket events delivered to `submitToQueueOwner`: a line of data, the
`close` event, or the socket `error` event. -/
inductive QueueSocketEvent where
  | line (l : QueueClientLine)
  | closeEvt
  | errorEvt
deriving DecidableEq, Repr

/-- Calls issued to the supplied output formatter, in order. -/
inductive FormatterCall where
  | setContext
  | onError (p : OwnerErrorPayload)
  | onSessionUpdate (note : String)
  | onClientOperation (op : String)
  | onDone (stopReason : String)
  | flushOut
deriving DecidableEq, Repr

/-- What `submitToQueueOwner` resolves with: the enqueue-only result
`queued: true` or the final prompt result. -/
inductive SessionSendOutcome where
  | queued (requestId : Nat)
  | result (r : PromptResultPayload)
deriving DecidableEq, Repr

/-- Rejection reasons of `submitToQueueOwner`: client-side protocol errors,
client-side connection errors (by detailCode and retryable flag), an error
message forwarded from the owner, or a raw socket error. -/
inductive SubmitReject where
  | protocolError (detailCode : String) (retryable : Bool)
  | connectionError (detailCode : String) (retryable : Bool)
  | ownerError (p : OwnerErrorPayload)
  | socketError
deriving DecidableEq, Repr

/-- How the promise inside `submitToQueueOwner` settled. -/
inductive SubmitSettled where
  | resolved (o : SessionSendOutcome)
  | rejected (e : SubmitReject)
deriving DecidableEq, Repr

/-- State of the `submitToQueueOwner` promise body
(src/queue-ipc-client.ts lines 128-337): the `settled` flag with its value,
the `acknowledged` and `sawDone` flags, and the formatter calls made so far. -/
structure SubmitClientState where
  settled : Option SubmitSettled
  acknowledged : Bool
  sawDone : Bool
  calls : List FormatterCall
deriving DecidableEq, Repr

/-- Initial promise-body state: the formatter context is set before the
request is written (src/queue-ipc-client.ts line 122). -/
def submitInitState : SubmitClientState :=
  { settled := none, acknowledged := false, sawDone := false,
    calls := [.setContext] }

/-- `finishResolve` (src/queue-ipc-client.ts lines 134-144): settle with a
result unless already settled. -/
def finishResolve (st : SubmitClientState) (o : SessionSendOutcome) :
    SubmitClientState :=
  if st.settled.isSome then st else { st with settled := some (.resolved o) }

/-- `finishReject` (src/queue-ipc-client.ts lines 146-156): settle with an
error unless already settled. -/
def finishReject (st : SubmitClientState) (e : SubmitReject) :
    SubmitClientState :=
  if st.settled.isSome then st else { st with settled := some (.rejected e) }

/-- `processLine` (src/queue-ipc-client.ts lines 158-276), for the request's
`waitForCompletion` flag `wfc` and requestId `rid`. -/
def processLine (wfc : Bool) (rid : Nat) (st : SubmitClientState) :
    QueueClientLine → SubmitClientState
  | .invalidJson =>
    finishReject st (.protocolError "QUEUE_PROTOCOL_INVALID_JSON" true)
  | .unparsable =>
    finishReject st (.protocolError "QUEUE_PROTOCOL_MALFORMED_MESSAGE" true)
  | .msg mrid body =>
    if mrid ≠ rid then
      finishReject st (.protocolError "QUEUE_PROTOCOL_MALFORMED_MESSAGE" true)
    else
      match body with
      | .accepted =>
        let st1 := { st with acknowledged := true,
                             calls := st.calls ++ [.setContext] }
        if wfc then st1 else finishResolve st1 (.queued rid)
      | .errorMsg p =>
        let st1 := { st with calls := st.calls ++ [.setContext, .onError p, .flushOut] }
        finishReject st1 (.ownerError p)
      | .sessionUpdate n =>
        if !st.acknowledged then
          finishReject st (.connectionError "QUEUE_ACK_MISSING" true)
        else { st with calls := st.calls ++ [.onSessionUpdate n] }
      | .clientOperation op =>
        if !st.acknowledged then
          finishReject st (.connectionError "QUEUE_ACK_MISSING" true)
        else { st with calls := st.calls ++ [.onClientOperation op] }
      | .done sr =>
        if !st.acknowledged then
          finishReject st (.connectionError "QUEUE_ACK_MISSING" true)
        else { st with sawDone := true, calls := st.calls ++ [.onDone sr] }
      | .result r =>
        if !st.acknowledged then
          finishReject st (.connectionError "QUEUE_ACK_MISSING" true)
        else
          let st1 :=
            if st.sawDone then st
            else { st with calls := st.calls ++ [.onDone r.stopReason] }
          finishResolve { st1 with calls := st1.calls ++ [.flushOut] } (.result r)
      | .controlResult =>
        if !st.acknowledged then
          finishReject st (.connectionError "QUEUE_ACK_MISSING" true)
        else
          finishReject st (.protocolError "QUEUE_PROTOCOL_UNEXPECTED_RESPONSE" true)

/-- One socket event processed by `submitToQueueOwner`.  Once settled the
listeners are removed, so later events are ignored.  The `close` handler
(src/queue-ipc-client.ts lines 298-334) distinguishes pre-ack close,
enqueue-only resolution, and post-ack disconnection. -/
def submitStep (wfc : Bool) (rid : Nat) (st : SubmitClientState) :
    QueueSocketEvent → SubmitClientState
  | .line l => if st.settled.isSome then st else processLine wfc rid st l
  | .closeEvt =>
    if st.settled.isSome then st
    else if !st.acknowledged then
      finishReject st (.connectionError "QUEUE_DISCONNECTED_BEFORE_ACK" true)
    else if !wfc then finishResolve st (.queued rid)
    else
      finishReject st
        (.connectionError "QUEUE_DISCONNECTED_BEFORE_COMPLETION" true)
  | .errorEvt => if st.settled.isSome then st else finishReject st .socketError

/-- Fold a list of socket events through `submitStep`. -/
def submitFold (wfc : Bool) (rid : Nat) (st : SubmitClientState)
    (evs : List QueueSocketEvent) : SubmitClientState :=
  evs.foldl (submitStep wfc rid) st

/-- The promise body of `submitToQueueOwner` run on a whole event trace. -/
def submitToQueueOwner (wfc : Bool) (rid : Nat)
    (evs : List QueueSocketEvent) : SubmitClientState :=
  submitFold wfc rid submitInitState evs

/-- Recognizer for `onDone` formatter calls. -/
def isOnDoneCall : FormatterCall → Bool
  | .onDone _ => true
  | _ => false

/-- Number of `onDone` notifications among the formatter calls. -/
def countOnDone (calls : List FormatterCall) : Nat :=
  calls.countP (fun c => isOnDoneCall c)

/-- Recognizer for `done` message lines in a socket event trace. -/
def isDoneLine : QueueSocketEvent → Bool
  | .line (.msg _ (.done _)) => true
  | _ => false

/-- Number of `done` messages in a socket event trace. -/
def countDoneMsgs (evs : List QueueSocketEvent) : Nat :=
  evs.countP (fun e => isDoneLine e)

/-- Outcome of one `connectToSocket` attempt: connected, or failed with a
Node error code; `ownerAliveAfter` is what the `isProcessAlive(owner.pid)`
probe reports right after that failure. -/
inductive ConnAttemptOutcome where
  | connected
  | failed (code : String) (ownerAliveAfter : Bool)
deriving DecidableEq, Repr

/-- Maximum connect attempts (src/queue-ipc-client.ts line 33). -/
def QUEUE_CONNECT_ATTEMPTS : Nat := 40

/-- Delay between connect attempts in ms (src/queue-ipc-client.ts line 34). -/
def QUEUE_CONNECT_RETRY_MS : Nat := 50

/-- `shouldRetryQueueConnect` (src/queue-ipc-client.ts lines 36-39). -/
def shouldRetryQueueConnect (code : String) : Bool :=
  code = "ENOENT" || code = "ECONNREFUSED"

/-- Result of `connectToQueueOwner`: a socket obtained on a given attempt
index, `undefined` (no owner), or a rethrown connection error. -/
inductive ConnectResult where
  | socket (attemptIdx : Nat)
  | noOwner
  | threw (code : String)
deriving DecidableEq, Repr

/-- The attempt loop of `connectToQueueOwner` (src/queue-ipc-client.ts lines
59-85): at attempt index `i` with `fuel` attempts left, consult the attempt
outcomes `f`; rethrow non-retryable errors, abort with no owner when the
lease's pid has died, and otherwise sleep `QUEUE_CONNECT_RETRY_MS` and retry.
Returns the result together with the total slept milliseconds.  (The
post-loop rethrow of a non-retryable `lastError` in the source is
unreachable, since such an error is already thrown inside the loop.) -/
def connectGo (f : Nat → ConnAttemptOutcome) :
    Nat → Nat → Nat → ConnectResult × Nat
  | 0, _, slept => (.noOwner, slept)
  | fuel + 1, i, slept =>
    match f i with
    | .connected => (.socket i, slept)
    | .failed c al =>
      if !shouldRetryQueueConnect c then (.threw c, slept)
      else if !al then (.noOwner, slept)
      else connectGo f fuel (i + 1) (slept + QUEUE_CONNECT_RETRY_MS)

/-- `connectToQueueOwner` over a sequence of attempt outcomes. -/
def connectToQueueOwner (f : Nat → ConnAttemptOutcome) : ConnectResult × Nat :=
  connectGo f QUEUE_CONNECT_ATTEMPTS 0 0

/-- Outcome of one `trySubmitToRunningOwner` call inside the spawn-or-attach
loop: a truthy result, `undefined` (no live owner), a thrown
`QUEUE_NOT_ACCEPTING_REQUESTS` `QueueConnectionError`, or any other thrown
error (identified by a tag). -/
inductive SpawnAttemptOutcome where
  | ok (r : Nat)
  | noOwner
  | errNotAccepting
  | errOther (e : Nat)
deriving DecidableEq, Repr

/-- State threaded through the spawn-or-attach loop: the wall clock, the
`lastSpawnAttemptAt` timestamp, and the times at which a detached owner child
was spawned. -/
structure SpawnLoopState where
  timeMs : Nat
  lastSpawnAttemptAt : Nat
  spawnTimes : List Nat
deriving DecidableEq, Repr

/-- Result of `sendViaDetachedQueueOwner`: success, the deadline-expiry
`QUEUE_NOT_ACCEPTING_REQUESTS` error, a propagated foreign error, or the end
of the supplied attempt trace. -/
inductive SpawnResult where
  | ok (r : Nat)
  | timedOutNotAccepting
  | propagated (e : Nat)
  | outOfTrace
deriving DecidableEq, Repr

/-- Startup deadline in ms (src/session-owner-spawn.ts line 19). -/
def QUEUE_OWNER_STARTUP_TIMEOUT_MS : Nat := 10000

/-- Respawn backoff in ms (src/session-owner-spawn.ts line 20). -/
def QUEUE_OWNER_RESPAWN_BACKOFF_MS : Nat := 250

/-- The retry loop of `sendViaDetachedQueueOwner` (src/session-owner-spawn.ts
lines 118-181).  Each trace element is one `trySubmitToRunningOwner` call:
its outcome and how long it took.  A truthy result returns; a foreign error
is rethrown; `QUEUE_NOT_ACCEPTING_REQUESTS` checks the deadline and then
sleeps `QUEUE_CONNECT_RETRY_MS`; `undefined` checks the deadline, spawns a
detached owner when `now - lastSpawnAttemptAt >= QUEUE_OWNER_RESPAWN_BACKOFF_MS`,
and sleeps `QUEUE_CONNECT_RETRY_MS`. -/
def sendViaDetachedQueueOwnerGo (deadline : Nat) :
    List (SpawnAttemptOutcome × Nat) → SpawnLoopState →
    SpawnResult × SpawnLoopState
  | [], st => (.outOfTrace, st)
  | (outcome, dur) :: rest, st =>
    let now := st.timeMs + dur
    let st1 := { st with timeMs := now }
    match outcome with
    | .ok r => (.ok r, st1)
    | .errOther e => (.propagated e, st1)
    | .errNotAccepting =>
      if deadline ≤ now then (.timedOutNotAccepting, st1)
      else
        sendViaDetachedQueueOwnerGo deadline rest
          { st1 with timeMs := now + QUEUE_CONNECT_RETRY_MS }
    | .noOwner =>
      if deadline ≤ now then (.timedOutNotAccepting, st1)
      else
        let st2 :=
          if QUEUE_OWNER_RESPAWN_BACKOFF_MS ≤ now - st1.lastSpawnAttemptAt then
            { st1 with lastSpawnAttemptAt := now,
                       spawnTimes := st1.spawnTimes ++ [now] }
          else st1
        sendViaDetachedQueueOwnerGo deadline rest
          { st2 with timeMs := now + QUEUE_CONNECT_RETRY_MS }

/-- `sendViaDetachedQueueOwner` entered at wall-clock time `t0`: the startup
deadline is `t0 + QUEUE_OWNER_STARTUP_TIMEOUT_MS` and `lastSpawnAttemptAt`
starts at 0 (src/session-owner-spawn.ts lines 118-119). -/
def sendViaDetachedQueueOwner (t0 : Nat)
    (trace : List (SpawnAttemptOutcome × Nat)) :
    SpawnResult × SpawnLoopState :=
  sendViaDetachedQueueOwnerGo (t0 + QUEUE_OWNER_STARTUP_TIMEOUT_MS) trace
    { timeMs := t0, lastSpawnAttemptAt := 0, spawnTimes := [] }

/-- Consecutive spawn times keep at least the respawn backoff apart, starting
from the initial `lastSpawnAttemptAt` value `prev`. -/
def spawnGapsOk : Nat → List Nat → Prop
  | _, [] => True
  | prev, t :: rest =>
    prev + QUEUE_OWNER_RESPAWN_BACKOFF_MS ≤ t ∧ spawnGapsOk t rest

/-- A content block of a session update: the formatters only distinguish text
content from everything else (src/output.ts checks `content.type === "text"`). -/
inductive ContentBlock where
  | text (s : String)
  | nonText
deriving DecidableEq, Repr

/-- Session updates as dispatched by the formatters (src/output.ts): plan
entries carry `(status, content)` pairs. -/
inductive SessionUpdate where
  | agentMessageChunk (content : ContentBlock)
  | agentThoughtChunk (content : ContentBlock)
  | toolCall (title : String) (toolCallId : String) (status : Option String)
  | toolCallUpdate (title : Option String) (toolCallId : String)
      (status : Option String)
  | plan (entries : List (String × String))
  | otherUpdate (name : String)
deriving DecidableEq, Repr

/-- One write performed by a formatter: a raw text chunk (text and quiet
modes) or an ndjson event line of the given event type (json mode; the
payload fields and timestamps are not modelled). -/
inductive FormatterWrite where
  | raw (s : String)
  | event (eventType : String)
deriving DecidableEq, Repr

/-- `asStatus` (src/output.ts lines 20-22). -/
def asStatus (status : Option String) : String := status.getD "unknown"

/-- An output formatter as defined by src/output.ts: each method maps the
quiet-mode chunk buffer to a new buffer plus writes.  `onError` is an
optional capability slot: `none` when the formatter class defines no
`onError` method. -/
structure OutputFormatter where
  onSessionUpdate : SessionUpdate → List String → List String × List FormatterWrite
  onDone : String → List String → List String × List FormatterWrite
  flushBuf : List String → List String × List FormatterWrite
  onError : Option (OwnerErrorPayload → List String → List String × List FormatterWrite)

/-- `TextOutputFormatter.onSessionUpdate` (src/output.ts lines 31-66). -/
def textOnSessionUpdate (u : SessionUpdate) (buf : List String) :
    List String × List FormatterWrite :=
  match u with
  | .agentMessageChunk (.text t) => (buf, [.raw t])
  | .agentMessageChunk .nonText => (buf, [])
  | .agentThoughtChunk (.text t) => (buf, [.raw ("\n[thought] " ++ t ++ "\n")])
  | .agentThoughtChunk .nonText => (buf, [])
  | .toolCall title _ status =>
    (buf, [.raw ("\n[tool] " ++ title ++ " (" ++ asStatus status ++ ")\n")])
  | .toolCallUpdate title toolCallId status =>
    (buf, [.raw ("\n[tool] " ++ title.getD toolCallId ++ " (" ++ asStatus status ++ ")\n")])
  | .plan entries =>
    (buf, .raw "\n[plan]\n" ::
      entries.map (fun e => .raw ("- (" ++ e.1 ++ ") " ++ e.2 ++ "\n")))
  | .otherUpdate _ => (buf, [])

/-- `JsonOutputFormatter.onSessionUpdate` (src/output.ts lines 84-149):
every branch emits one ndjson event (text-typed chunks only for the chunk
updates); unknown updates emit a generic `update` event. -/
def jsonOnSessionUpdate (u : SessionUpdate) (buf : List String) :
    List String × List FormatterWrite :=
  match u with
  | .agentMessageChunk (.text _) => (buf, [.event "text"])
  | .agentMessageChunk .nonText => (buf, [])
  | .agentThoughtChunk (.text _) => (buf, [.event "thought"])
  | .agentThoughtChunk .nonText => (buf, [])
  | .toolCall _ _ _ => (buf, [.event "tool_call"])
  | .toolCallUpdate _ _ _ => (buf, [.event "tool_call"])
  | .plan _ => (buf, [.event "plan"])
  | .otherUpdate _ => (buf, [.event "update"])

/-- `QuietOutputFormatter.onSessionUpdate` (src/output.ts lines 176-185):
buffer text chunks of agent messages, drop everything else. -/
def quietOnSessionUpdate (u : SessionUpdate) (buf : List String) :
    List String × List FormatterWrite :=
  match u with
  | .agentMessageChunk (.text t) => (buf ++ [t], [])
  | _ => (buf, [])

/-- `QuietOutputFormatter.onDone` (src/output.ts lines 187-190): write the
joined buffered text, ensuring a trailing newline. -/
def quietOnDone (_stopReason : String) (buf : List String) :
    List String × List FormatterWrite :=
  let t := String.join buf
  (buf, [.raw (if t.endsWith "\n" then t else t ++ "\n")])

/-- The three output formats accepted by `createOutputFormatter`
(src/types.ts `OUTPUT_FORMATS` as used in src/output.ts). -/
inductive OutputFormat where
  | text
  | json
  | quiet
deriving DecidableEq, Repr

/-- `createOutputFormatter` (src/output.ts lines 197-215): none of the three
formatter classes defines an `onError` method, so the `onError` slot is empty
for every format. -/
def createOutputFormatter : OutputFormat → OutputFormatter
  | .text =>
    { onSessionUpdate := textOnSessionUpdate,
      onDone := fun sr buf => (buf, [.raw ("\n[done] " ++ sr ++ "\n")]),
      flushBuf := fun buf => (buf, []),
      onError := none }
  | .json =>
    { onSessionUpdate := jsonOnSessionUpdate,
      onDone := fun _ buf => (buf, [.event "done"]),
      flushBuf := fun buf => (buf, []),
      onError := none }
  | .quiet =>
    { onSessionUpdate := quietOnSessionUpdate,
      onDone := quietOnDone,
      flushBuf := fun buf => (buf, []),
      onError := none }

/-- C7: `normalizeQueueOwnerTtlMs` maps `null`/`undefined`, negative and
non-finite values to the default 300000 ms, maps 0 to 0 (no TTL: the idle
wait handed to `nextTask` is unbounded), and rounds every other value to an
integer; and in the owner main loop a null task with positive TTL terminates
the loop. -/
theorem normalizeTtl_spec :
    normalizeQueueOwnerTtlMs none = 300000 ∧
    normalizeQueueOwnerTtlMs (some .nan) = 300000 ∧
    normalizeQueueOwnerTtlMs (some .posInf) = 300000 ∧
    normalizeQueueOwnerTtlMs (some .negInf) = 300000 ∧
    (∀ q : Rat, q < 0 → normalizeQueueOwnerTtlMs (some (.finite q)) = 300000) ∧
    normalizeQueueOwnerTtlMs (some (.finite 0)) = 0 ∧
    (∀ q : Rat, 0 ≤ q →
      normalizeQueueOwnerTtlMs (some (.finite q)) = jsMathRound q) ∧
    ownerIdleWaitMs 0 = none ∧
    (∀ (ttl : Int) (task : Option Nat), 0 < ttl → task = none →
      ownerLoopOnTask task = .shutdown) := by
  refine ⟨rfl, rfl, rfl, rfl, ?_, ?_, ?_, ?_, ?_⟩
  · intro q hq
    simp [normalizeQueueOwnerTtlMs, hq, DEFAULT_QUEUE_OWNER_TTL_MS]
  · have h0 : jsMathRound 0 = 0 := by
      unfold jsMathRound
      rw [Int.floor_eq_iff] <;> norm_num
    simp [normalizeQueueOwnerTtlMs, h0]
  · intro q hq
    simp [normalizeQueueOwnerTtlMs, not_lt.mpr hq]
  · rfl
  · intro ttl task _ htask
    subst htask
    rfl

/-- Witness for `normalizeTtl_spec`: concrete negative and fractional TTLs. -/
theorem normalizeTtl_spec_witness :
    normalizeQueueOwnerTtlMs (some (.finite (-7))) = 300000 ∧
    normalizeQueueOwnerTtlMs (some (.finite (7 / 2))) = jsMathRound (7 / 2) ∧
    ownerLoopOnTask (none : Option Nat) = .shutdown :=
  ⟨normalizeTtl_spec.2.2.2.2.1 (-7) (by norm_num),
   normalizeTtl_spec.2.2.2.2.2.2.1 (7 / 2) (by norm_num),
   normalizeTtl_spec.2.2.2.2.2.2.2.2 1 none (by norm_num) rfl⟩

/-- C9 (code evaluation): none of the three output formatters built by
`createOutputFormatter` defines an `onError` method, although the queue IPC
client delivers owner errors by calling `outputFormatter.onError`. -/
theorem formatters_have_no_onError :
    (createOutputFormatter .text).onError = none ∧
    (createOutputFormatter .json).onError = none ∧
    (createOutputFormatter .quiet).onError = none :=
  ⟨rfl, rfl, rfl⟩

/-- C1: `requestCancel` records a pending cancel and returns true in `idle`
and `starting`; in `active` with an active prompt it delivers through the
active controller and returns the delivery result; it refuses with false in
`closing`; and (when delivery reports success) it returns false exactly in
the `closing` state. -/
theorem requestCancel_lifecycle :
    (∀ s : QueueOwnerTurnController,
      s.lifecycle = .idle ∨ s.lifecycle = .starting →
      s.requestCancel = (true, { s with pendingCancel := true })) ∧
    (∀ s : QueueOwnerTurnController,
      s.lifecycle = .active → s.hasActivePrompt = true →
      s.requestCancel = (s.cancelResult,
        { s with pendingCancel := false,
                 adapterCancels := s.adapterCancels + 1 })) ∧
    (∀ s : QueueOwnerTurnController,
      s.lifecycle = .closing → s.requestCancel = (false, s)) ∧
    (∀ s : QueueOwnerTurnController, s.cancelResult = true →
      (s.requestCancel.1 = false ↔ s.lifecycle = .closing)) := by
  refine ⟨?_, ?_, ?_, ?_⟩
  · intro s hs
    rcases hs with h | h <;>
      simp [QueueOwnerTurnController.requestCancel, h]
  · intro s h hp
    simp [QueueOwnerTurnController.requestCancel, h, hp]
  · intro s h
    simp [QueueOwnerTurnController.requestCancel, h]
  · intro s hres
    rcases hlc : s.lifecycle with h | h | h | h <;>
      simp [QueueOwnerTurnController.requestCancel, hlc, hres] <;>
      split <;> simp [hres]

/-- Witness for `requestCancel_lifecycle`: a closing controller refuses. -/
theorem requestCancel_lifecycle_witness :
    (QueueOwnerTurnController.mk .closing false false false true 0).requestCancel =
      (false, QueueOwnerTurnController.mk .closing false false false true 0) :=
  requestCancel_lifecycle.2.2.1 _ rfl

/-- Every attempt against a lock file held by a live owner fails and leaves
the file alone. -/
theorem tryAcquireAll_live_owner (alive : Nat → Bool) (l : QueueOwnerLease)
    (h : alive l.pid = true) :
    ∀ ps : List Nat, tryAcquireAll alive ps (some l) =
      (List.replicate ps.length none, some l) := by
  intro ps
  induction ps with
  | nil => rfl
  | cons p ps ih =>
    simp [tryAcquireAll, tryAcquireQueueOwnerLease, h, ih, List.replicate]

/-- Counting lemma: a replicated `none` block holds no acquired lease. -/
theorem countP_replicate_none (n : Nat) :
    (List.replicate n (none : Option QueueOwnerLease)).countP
      (fun r => r.isSome) = 0 := by
  induction n with
  | zero => rfl
  | succ n ih => simp [List.replicate, List.countP_cons, ih]

/-- C4: starting from a missing lock file (or one recorded by a dead pid),
a sequence of interleaved `tryAcquire` attempts by live pids grants the lease
to exactly the first attempt; every other attempt observes the live lease and
fails, so exactly one attempt returns a lease and at most one lease file with
a live pid ever exists. -/
theorem tryAcquire_at_most_one_owner :
    ∀ (alive : Nat → Bool) (p : Nat) (ps : List Nat)
      (lockFile : Option QueueOwnerLease),
      alive p = true →
      (lockFile = none ∨ ∀ l, lockFile = some l → alive l.pid = false) →
      tryAcquireAll alive (p :: ps) lockFile =
        (some ⟨p⟩ :: List.replicate ps.length none, some ⟨p⟩) ∧
      (tryAcquireAll alive (p :: ps) lockFile).1.countP
        (fun r => r.isSome) = 1 := by
  intro alive p ps lockFile hp hfile
  have hfirst : tryAcquireQueueOwnerLease alive p lockFile =
      (some ⟨p⟩, some ⟨p⟩) := by
    rcases hfile with h | h
    · subst h; rfl
    · cases lockFile with
      | none => rfl
      | some l => simp [tryAcquireQueueOwnerLease, h l rfl]
  have hrest := tryAcquireAll_live_owner alive ⟨p⟩ hp ps
  have hall : tryAcquireAll alive (p :: ps) lockFile =
      (some ⟨p⟩ :: List.replicate ps.length none, some ⟨p⟩) := by
    simp [tryAcquireAll, hfirst, hrest]
  refine ⟨hall, ?_⟩
  rw [hall]
  simp [List.countP_cons, countP_replicate_none]

/-- Witness for `tryAcquire_at_most_one_owner`: three live contenders on a
fresh SessionKey. -/
theorem tryAcquire_at_most_one_owner_witness :
    tryAcquireAll (fun _ => true) [1, 2, 3] none =
      (some ⟨1⟩ :: List.replicate 2 none, some ⟨1⟩) ∧
    (tryAcquireAll (fun _ => true) [1, 2, 3] none).1.countP
      (fun r => r.isSome) = 1 :=
  tryAcquire_at_most_one_owner (fun _ => true) 1 [2, 3] none rfl (Or.inl rfl)

/-- The connect loop consults the attempt outcomes only at the indices it has
fuel for. -/
theorem connectGo_agree (fuel : Nat) :
    ∀ (i slept : Nat) (f g : Nat → ConnAttemptOutcome),
      (∀ j, i ≤ j → j < i + fuel → f j = g j) →
      connectGo f fuel i slept = connectGo g fuel i slept := by
  induction fuel with
  | zero => intro i slept f g _; rfl
  | succ fuel ih =>
    intro i slept f g hagree
    have hi : f i = g i := hagree i (Nat.le_refl i) (by omega)
    simp only [connectGo, hi]
    cases g i with
    | connected => rfl
    | failed c al =>
      cases hcr : shouldRetryQueueConnect c <;> cases al <;>
        simp [hcr, ih (i + 1) (slept + QUEUE_CONNECT_RETRY_MS) f g
          (fun j h1 h2 => hagree j (by omega) (by omega))]

/-- With every attempt failing retryably against a live owner, the loop
exhausts its fuel, sleeping between attempts. -/
theorem connectGo_exhaust (fuel : Nat) :
    ∀ (i slept : Nat) (f : Nat → ConnAttemptOutcome),
      (∀ j, j < fuel →
        ∃ c, f (i + j) = .failed c true ∧ shouldRetryQueueConnect c = true) →
      connectGo f fuel i slept =
        (.noOwner, slept + fuel * QUEUE_CONNECT_RETRY_MS) := by
  induction fuel with
  | zero => intro i slept f _; rfl
  | succ fuel ih =>
    intro i slept f hfail
    obtain ⟨c, hc, hretry⟩ := hfail 0 (Nat.succ_pos fuel)
    simp only [Nat.add_zero] at hc
    have hrest : ∀ j, j < fuel →
        ∃ c, f (i + 1 + j) = .failed c true ∧ shouldRetryQueueConnect c = true := by
      intro j hj
      have := hfail (j + 1) (by omega)
      simpa [Nat.add_assoc, Nat.add_comm 1 j] using this
    simp only [connectGo, hc, hretry]
    rw [ih (i + 1) (slept + QUEUE_CONNECT_RETRY_MS) f hrest]
    simp [QUEUE_CONNECT_RETRY_MS]
    ring

/-- C6: the connection procedure makes at most `QUEUE_CONNECT_ATTEMPTS` (40)
attempts; it rethrows a non-retryable error immediately; a retryable failure
with the lease's pid dead aborts with no owner; a retryable failure with the
pid alive sleeps `QUEUE_CONNECT_RETRY_MS` (50 ms) and retries; and when all
40 attempts fail retryably against a live pid it returns no owner after
40 × 50 ms of waiting. -/
theorem connectToQueueOwner_retry_spec :
    (∀ f g : Nat → ConnAttemptOutcome,
      (∀ j, j < QUEUE_CONNECT_ATTEMPTS → f j = g j) →
      connectToQueueOwner f = connectToQueueOwner g) ∧
    (∀ (f : Nat → ConnAttemptOutcome) (fuel i slept : Nat) (c : String)
      (al : Bool),
      f i = .failed c al → shouldRetryQueueConnect c = false →
      connectGo f (fuel + 1) i slept = (.threw c, slept)) ∧
    (∀ (f : Nat → ConnAttemptOutcome) (fuel i slept : Nat) (c : String),
      f i = .failed c false → shouldRetryQueueConnect c = true →
      connectGo f (fuel + 1) i slept = (.noOwner, slept)) ∧
    (∀ (f : Nat → ConnAttemptOutcome) (fuel i slept : Nat) (c : String),
      f i = .failed c true → shouldRetryQueueConnect c = true →
      connectGo f (fuel + 1) i slept =
        connectGo f fuel (i + 1) (slept + QUEUE_CONNECT_RETRY_MS)) ∧
    (∀ f : Nat → ConnAttemptOutcome,
      (∀ j, j < QUEUE_CONNECT_ATTEMPTS →
        ∃ c, f j = .failed c true ∧ shouldRetryQueueConnect c = true) →
      connectToQueueOwner f =
        (.noOwner, QUEUE_CONNECT_ATTEMPTS * QUEUE_CONNECT_RETRY_MS)) := by
  refine ⟨?_, ?_, ?_, ?_, ?_⟩
  · intro f g hagree
    exact connectGo_agree QUEUE_CONNECT_ATTEMPTS 0 0 f g
      (fun j _ hj => hagree j (by simpa using hj))
  · intro f fuel i slept c al hc hretry
    simp [connectGo, hc, hretry]
  · intro f fuel i slept c hc hretry
    simp [connectGo, hc, hretry]
  · intro f fuel i slept c hc hretry
    simp [connectGo, hc, hretry]
  · intro f hfail
    have := connectGo_exhaust QUEUE_CONNECT_ATTEMPTS 0 0 f
      (fun j hj => by simpa using hfail j hj)
    simpa using this

/-- Witness for `connectToQueueOwner_retry_spec`: a non-retryable `EACCES`
failure on the first attempt is rethrown at once. -/
theorem connectToQueueOwner_retry_spec_witness :
    connectGo (fun _ => .failed "EACCES" true) 40 0 0 = (.threw "EACCES", 0) :=
  connectToQueueOwner_retry_spec.2.1 (fun _ => .failed "EACCES" true)
    39 0 0 "EACCES" true rfl rfl

/-- Folding one more socket event. -/
theorem submitFold_append_single (wfc : Bool) (rid : Nat)
    (st : SubmitClientState) (evs : List QueueSocketEvent)
    (e : QueueSocketEvent) :
    submitFold wfc rid st (evs ++ [e]) =
      submitStep wfc rid (submitFold wfc rid st evs) e := by
  simp [submitFold, List.foldl_append]

/-- C3: closing the socket before `accepted` rejects with the retryable
`QUEUE_DISCONNECTED_BEFORE_ACK`; closing after `accepted` but before a
terminal with `waitForCompletion` rejects with the retryable
`QUEUE_DISCONNECTED_BEFORE_COMPLETION`; and without `waitForCompletion` the
call resolves `queued` on `accepted`, or on a close after `accepted`. -/
theorem submit_disconnect_and_enqueue :
    (∀ (wfc : Bool) (rid : Nat) (evs : List QueueSocketEvent),
      (submitToQueueOwner wfc rid evs).settled = none →
      (submitToQueueOwner wfc rid evs).acknowledged = false →
      (submitToQueueOwner wfc rid (evs ++ [.closeEvt])).settled =
        some (.rejected
          (.connectionError "QUEUE_DISCONNECTED_BEFORE_ACK" true))) ∧
    (∀ (rid : Nat) (evs : List QueueSocketEvent),
      (submitToQueueOwner true rid evs).settled = none →
      (submitToQueueOwner true rid evs).acknowledged = true →
      (submitToQueueOwner true rid (evs ++ [.closeEvt])).settled =
        some (.rejected
          (.connectionError "QUEUE_DISCONNECTED_BEFORE_COMPLETION" true))) ∧
    (∀ (rid : Nat) (evs : List QueueSocketEvent),
      (submitToQueueOwner false rid evs).settled = none →
      (submitToQueueOwner false rid
          (evs ++ [.line (.msg rid .accepted)])).settled =
        some (.resolved (.queued rid))) ∧
    (∀ (rid : Nat) (evs : List QueueSocketEvent),
      (submitToQueueOwner false rid evs).settled = none →
      (submitToQueueOwner false rid evs).acknowledged = true →
      (submitToQueueOwner false rid (evs ++ [.closeEvt])).settled =
        some (.resolved (.queued rid))) := by
  refine ⟨?_, ?_, ?_, ?_⟩
  · intro wfc rid evs h1 h2
    unfold submitToQueueOwner at *
    rw [submitFold_append_single]
    simp [submitStep, h1, h2, finishReject]
  · intro rid evs h1 h2
    unfold submitToQueueOwner at *
    rw [submitFold_append_single]
    simp [submitStep, h1, h2, finishReject]
  · intro rid evs h1
    unfold submitToQueueOwner at *
    rw [submitFold_append_single]
    simp [submitStep, h1, processLine, finishResolve]
  · intro rid evs h1 h2
    unfold submitToQueueOwner at *
    rw [submitFold_append_single]
    simp [submitStep, h1, h2, finishResolve]

/-- Witness for `submit_disconnect_and_enqueue`: an immediate close before
any message rejects with `QUEUE_DISCONNECTED_BEFORE_ACK`. -/
theorem submit_disconnect_and_enqueue_witness :
    (submitToQueueOwner true 0 ([] ++ [.closeEvt])).settled =
      some (.rejected
        (.connectionError "QUEUE_DISCONNECTED_BEFORE_ACK" true)) :=
  submit_disconnect_and_enqueue.1 true 0 [] rfl rfl

/-- Applying a pending cancel never changes the lifecycle state. -/
theorem applyPendingCancel_lifecycle (s : QueueOwnerTurnController) :
    s.applyPendingCancel.2.lifecycle = s.lifecycle := by
  unfold QueueOwnerTurnController.applyPendingCancel
  split <;> rfl

/-- Requesting a cancel never changes the lifecycle state. -/
theorem requestCancel_keeps_lifecycle (s : QueueOwnerTurnController) :
    s.requestCancel.2.lifecycle = s.lifecycle := by
  obtain ⟨lc, pc, hc, pa, cr, ac⟩ := s
  cases lc <;> simp [QueueOwnerTurnController.requestCancel]
  split <;> rfl

/-- The cancel-prompt control handler never changes the lifecycle state. -/
theorem cancelPromptHandler_lifecycle (s : QueueOwnerTurnController) :
    (cancelPromptHandler s).2.lifecycle = s.lifecycle := by
  unfold cancelPromptHandler
  rcases hr : s.requestCancel with ⟨b, s1⟩
  have h1 : s1.lifecycle = s.lifecycle := by
    have h := requestCancel_keeps_lifecycle s
    rw [hr] at h
    exact h
  cases b <;> simp [applyPendingCancel_lifecycle, h1]

/-- Installing the active controller never changes the lifecycle state. -/
theorem onClientAvailable_lifecycle (c : ActiveSessionController)
    (s : QueueOwnerTurnController) :
    (onClientAvailable c s).lifecycle = s.lifecycle := by
  unfold onClientAvailable
  rw [applyPendingCancel_lifecycle]
  rfl

/-- The prompt acknowledgement callback lands in `active` when the turn is
underway. -/
theorem onPromptActive_lifecycle (s : QueueOwnerTurnController)
    (h : s.lifecycle = .starting ∨ s.lifecycle = .active) :
    (onPromptActive s).lifecycle = .active := by
  unfold onPromptActive
  rw [applyPendingCancel_lifecycle]
  rcases h with h | h <;>
    simp [QueueOwnerTurnController.markPromptActive, h]

/-- Mid-turn events keep the lifecycle in `starting` or `active`. -/
theorem turnMidStep_keeps_open (s : QueueOwnerTurnController)
    (e : TurnMidEvent)
    (h : s.lifecycle = .starting ∨ s.lifecycle = .active) :
    (turnMidStep s e).lifecycle = .starting ∨
      (turnMidStep s e).lifecycle = .active := by
  cases e with
  | clientAvailable c => rw [turnMidStep, onClientAvailable_lifecycle]; exact h
  | clientClosed =>
    simp only [turnMidStep, onClientClosed,
      QueueOwnerTurnController.clearActiveController]
    exact h
  | promptAck => exact Or.inr (onPromptActive_lifecycle s h)
  | cancelRequest => rw [turnMidStep, cancelPromptHandler_lifecycle]; exact h
  | applyPending => rw [turnMidStep, applyPendingCancel_lifecycle]; exact h

/-- A whole mid-turn interleaving keeps the lifecycle in `starting`/`active`. -/
theorem runTurnMid_keeps_open (evs : List TurnMidEvent) :
    ∀ s : QueueOwnerTurnController,
      s.lifecycle = .starting ∨ s.lifecycle = .active →
      (runTurnMid s evs).lifecycle = .starting ∨
        (runTurnMid s evs).lifecycle = .active := by
  induction evs with
  | nil => intro s h; exact h
  | cons e rest ih =>
    intro s h
    exact ih (turnMidStep s e) (turnMidStep_keeps_open s e h)

/-- Ending an open turn returns to `idle` and discards any pending cancel. -/
theorem endTurn_idle (s : QueueOwnerTurnController)
    (h : s.lifecycle = .starting ∨ s.lifecycle = .active) :
    s.endTurn.lifecycle = .idle ∧ s.endTurn.pendingCancel = false := by
  rcases h with h | h <;>
    simp [QueueOwnerTurnController.endTurn, h]

/-- C8: `runPromptTurn` brackets every dequeued task with `beginTurn` and, on
success and failure alike, `endTurn`, so the turn state is back to `idle`
(with no pending cancel left) before the next task is taken. -/
theorem runPromptTurn_brackets_turn :
    ∀ (s : QueueOwnerTurnController) (evs : List TurnMidEvent)
      (outcome : Except Unit Unit), s.lifecycle = .idle →
      (runPromptTurn evs outcome s).1 = outcome ∧
      (runPromptTurn evs outcome s).2.lifecycle = .idle ∧
      (runPromptTurn evs outcome s).2.pendingCancel = false := by
  intro s evs outcome hidle
  have hstart : s.beginTurn.lifecycle = .starting := by
    simp [QueueOwnerTurnController.beginTurn, hidle]
  have hopen := runTurnMid_keeps_open evs s.beginTurn (Or.inl hstart)
  have hend := endTurn_idle _ hopen
  exact ⟨rfl, hend.1, hend.2⟩

/-- Witness for `runPromptTurn_brackets_turn`: a failing task whose client
interactions include a deferred cancel still ends back in `idle`. -/
theorem runPromptTurn_brackets_turn_witness :
    (runPromptTurn [.cancelRequest, .promptAck] (Except.error ())
        QueueOwnerTurnController.init).1 = Except.error () ∧
    (runPromptTurn [.cancelRequest, .promptAck] (Except.error ())
        QueueOwnerTurnController.init).2.lifecycle = .idle ∧
    (runPromptTurn [.cancelRequest, .promptAck] (Except.error ())
        QueueOwnerTurnController.init).2.pendingCancel = false :=
  runPromptTurn_brackets_turn QueueOwnerTurnController.init
    [.cancelRequest, .promptAck] (Except.error ()) rfl

/-- Invariant preservation for the cancel-prompt handler: under the guard
(first adapter-relevant cancel, or a cancel while pending is set), a pending
slot implies no adapter cancel yet, and at most one adapter cancel is ever
issued. -/
theorem cancelPromptHandler_inv (s : QueueOwnerTurnController)
    (h1 : s.pendingCancel = true → s.adapterCancels = 0)
    (h2 : s.adapterCancels ≤ 1)
    (hg : s.pendingCancel = true ∨ s.adapterCancels = 0) :
    ((cancelPromptHandler s).2.pendingCancel = true →
      (cancelPromptHandler s).2.adapterCancels = 0) ∧
    (cancelPromptHandler s).2.adapterCancels ≤ 1 := by
  obtain ⟨lc, pc, hc, pa, cr, ac⟩ := s
  cases lc <;> cases pc <;> cases hc <;> cases pa <;> cases cr <;>
    simp_all [cancelPromptHandler, QueueOwnerTurnController.requestCancel,
      QueueOwnerTurnController.applyPendingCancel,
      QueueOwnerTurnController.hasActivePrompt]

/-- Invariant preservation for every mid-turn event. -/
theorem turnMidStep_inv (s : QueueOwnerTurnController) (e : TurnMidEvent)
    (h1 : s.pendingCancel = true → s.adapterCancels = 0)
    (h2 : s.adapterCancels ≤ 1)
    (hg : e = .cancelRequest →
      (s.pendingCancel = true ∨ s.adapterCancels = 0)) :
    ((turnMidStep s e).pendingCancel = true →
      (turnMidStep s e).adapterCancels = 0) ∧
    (turnMidStep s e).adapterCancels ≤ 1 := by
  cases e with
  | cancelRequest => exact cancelPromptHandler_inv s h1 h2 (hg rfl)
  | clientAvailable c =>
    obtain ⟨lc, pc, hc, pa, cr, ac⟩ := s
    obtain ⟨cpa, ccr⟩ := c
    cases pc <;> cases cpa <;>
      simp_all [turnMidStep, onClientAvailable,
        QueueOwnerTurnController.setActiveController,
        QueueOwnerTurnController.applyPendingCancel,
        QueueOwnerTurnController.hasActivePrompt]
  | clientClosed =>
    obtain ⟨lc, pc, hc, pa, cr, ac⟩ := s
    simp_all [turnMidStep, onClientClosed,
      QueueOwnerTurnController.clearActiveController]
  | promptAck =>
    obtain ⟨lc, pc, hc, pa, cr, ac⟩ := s
    cases lc <;> cases pc <;> cases hc <;>
      simp_all [turnMidStep, onPromptActive,
        QueueOwnerTurnController.markPromptActive,
        QueueOwnerTurnController.applyPendingCancel,
        QueueOwnerTurnController.hasActivePrompt]
  | applyPending =>
    obtain ⟨lc, pc, hc, pa, cr, ac⟩ := s
    cases pc <;> cases hc <;> cases pa <;>
      simp_all [turnMidStep,
        QueueOwnerTurnController.applyPendingCancel,
        QueueOwnerTurnController.hasActivePrompt]

/-- The adapter-cancel count never decreases across a mid-turn event. -/
theorem turnMidStep_cancels_mono (s : QueueOwnerTurnController)
    (e : TurnMidEvent) :
    s.adapterCancels ≤ (turnMidStep s e).adapterCancels := by
  obtain ⟨lc, pc, hc, pa, cr, ac⟩ := s
  cases e with
  | clientAvailable c =>
    obtain ⟨cpa, ccr⟩ := c
    cases pc <;> cases cpa <;>
      simp [turnMidStep, onClientAvailable,
        QueueOwnerTurnController.setActiveController,
        QueueOwnerTurnController.applyPendingCancel,
        QueueOwnerTurnController.hasActivePrompt]
  | clientClosed =>
    simp [turnMidStep, onClientClosed,
      QueueOwnerTurnController.clearActiveController]
  | promptAck =>
    cases lc <;> cases pc <;> cases hc <;>
      simp [turnMidStep, onPromptActive,
        QueueOwnerTurnController.markPromptActive,
        QueueOwnerTurnController.applyPendingCancel,
        QueueOwnerTurnController.hasActivePrompt]
  | cancelRequest =>
    cases lc <;> cases pc <;> cases hc <;> cases pa <;> cases cr <;>
      simp [turnMidStep, cancelPromptHandler,
        QueueOwnerTurnController.requestCancel,
        QueueOwnerTurnController.applyPendingCancel,
        QueueOwnerTurnController.hasActivePrompt]
  | applyPending =>
    cases pc <;> cases hc <;> cases pa <;>
      simp [turnMidStep,
        QueueOwnerTurnController.applyPendingCancel,
        QueueOwnerTurnController.hasActivePrompt]

/-- The adapter-cancel count never decreases across an interleaving. -/
theorem runTurnMid_cancels_mono (evs : List TurnMidEvent) :
    ∀ s : QueueOwnerTurnController,
      s.adapterCancels ≤ (runTurnMid s evs).adapterCancels := by
  induction evs with
  | nil => intro s; exact Nat.le_refl _
  | cons e rest ih =>
    intro s
    exact Nat.le_trans (turnMidStep_cancels_mono s e) (ih (turnMidStep s e))

/-- Invariant preservation along a guarded interleaving. -/
theorem runTurnMid_inv (evs : List TurnMidEvent) :
    ∀ s : QueueOwnerTurnController,
      (s.pendingCancel = true → s.adapterCancels = 0) →
      s.adapterCancels ≤ 1 →
      cancelRequestsGuarded s evs = true →
      ((runTurnMid s evs).pendingCancel = true →
        (runTurnMid s evs).adapterCancels = 0) ∧
      (runTurnMid s evs).adapterCancels ≤ 1 := by
  induction evs with
  | nil => intro s h1 h2 _; exact ⟨h1, h2⟩
  | cons e rest ih =>
    intro s h1 h2 hg
    rw [cancelRequestsGuarded, Bool.and_eq_true] at hg
    obtain ⟨hhead, htail⟩ := hg
    have hguard : e = .cancelRequest →
        (s.pendingCancel = true ∨ s.adapterCancels = 0) := by
      intro he
      subst he
      simpa using hhead
    obtain ⟨p1, p2⟩ := turnMidStep_inv s e h1 h2 hguard
    exact ih (turnMidStep s e) p1 p2 htail

/-- Splitting a guarded interleaving. -/
theorem cancelRequestsGuarded_append (evs1 evs2 : List TurnMidEvent) :
    ∀ s : QueueOwnerTurnController,
      cancelRequestsGuarded s (evs1 ++ evs2) = true →
      cancelRequestsGuarded s evs1 = true ∧
        cancelRequestsGuarded (runTurnMid s evs1) evs2 = true := by
  induction evs1 with
  | nil => intro s h; exact ⟨rfl, h⟩
  | cons e rest ih =>
    intro s h
    rw [List.cons_append, cancelRequestsGuarded, Bool.and_eq_true] at h
    obtain ⟨hhead, htail⟩ := h
    obtain ⟨ha, hb⟩ := ih (turnMidStep s e) htail
    refine ⟨?_, ?_⟩
    · rw [cancelRequestsGuarded, Bool.and_eq_true]
      exact ⟨hhead, ha⟩
    · exact hb

/-- Running an interleaving splits along list append. -/
theorem runTurnMid_append (evs1 evs2 : List TurnMidEvent)
    (s : QueueOwnerTurnController) :
    runTurnMid s (evs1 ++ evs2) = runTurnMid (runTurnMid s evs1) evs2 := by
  simp [runTurnMid, List.foldl_append]

/-- When the adapter acknowledges the prompt with a cancel pending and the
controller installed, `onPromptActive` delivers the cancel and clears the
pending slot. -/
theorem onPromptActive_delivers (s : QueueOwnerTurnController)
    (hp : s.pendingCancel = true) (hc : s.hasController = true) :
    (onPromptActive s).adapterCancels = s.adapterCancels + 1 ∧
    (onPromptActive s).pendingCancel = false := by
  obtain ⟨lc, pc, hcf, pa, cr, ac⟩ := s
  cases lc <;>
    simp_all [onPromptActive, QueueOwnerTurnController.markPromptActive,
      QueueOwnerTurnController.applyPendingCancel,
      QueueOwnerTurnController.hasActivePrompt]

/-- C2: along any one-turn interleaving in the deferred-cancel scenario
(every cancel request is the first adapter-relevant one or arrives while the
pending slot is set), at most one adapter-level cancel is issued; a pending
cancel left at turn end is discarded by `endTurn`; if the cancel is pending
when the adapter acknowledges the prompt, it is delivered exactly once;
`setActiveController` (with an active prompt) and `applyPendingCancel` are
the delivery points that perform the cancel and clear the slot; and further
cancel requests while pending is set and no prompt is active yet report
`cancelled: true` without invoking the adapter. -/
theorem deferred_cancel_exactly_once :
    (∀ evs : List TurnMidEvent,
      cancelRequestsGuarded turnStartState evs = true →
      (runTurnMid turnStartState evs).adapterCancels ≤ 1) ∧
    (∀ evs : List TurnMidEvent,
      (runTurnMid turnStartState evs).endTurn.pendingCancel = false) ∧
    (∀ evs1 evs2 : List TurnMidEvent,
      cancelRequestsGuarded turnStartState (evs1 ++ .promptAck :: evs2) = true →
      (runTurnMid turnStartState evs1).pendingCancel = true →
      (runTurnMid turnStartState evs1).hasController = true →
      (runTurnMid turnStartState
        (evs1 ++ .promptAck :: evs2)).adapterCancels = 1) ∧
    (∀ (s : QueueOwnerTurnController) (c : ActiveSessionController),
      s.pendingCancel = true → c.promptActive = true →
      onClientAvailable c s =
        { s with hasController := true, promptActive := c.promptActive,
                 cancelResult := c.cancelResult, pendingCancel := false,
                 adapterCancels := s.adapterCancels + 1 }) ∧
    (∀ s : QueueOwnerTurnController,
      s.pendingCancel = true → s.hasActivePrompt = true →
      s.applyPendingCancel = (true,
        { s with pendingCancel := false,
                 adapterCancels := s.adapterCancels + 1 })) ∧
    (∀ s : QueueOwnerTurnController,
      s.pendingCancel = true → s.hasActivePrompt = false →
      s.lifecycle ≠ .closing →
      (cancelPromptHandler s).1 = true ∧
      (cancelPromptHandler s).2.adapterCancels = s.adapterCancels) := by
  have hInv0a : turnStartState.pendingCancel = true →
      turnStartState.adapterCancels = 0 := fun _ => rfl
  have hInv0b : turnStartState.adapterCancels ≤ 1 := by decide
  refine ⟨?_, ?_, ?_, ?_, ?_, ?_⟩
  · intro evs hg
    exact (runTurnMid_inv evs turnStartState hInv0a hInv0b hg).2
  · intro evs
    have hstart : turnStartState.lifecycle = .starting := by decide
    have hopen := runTurnMid_keeps_open evs turnStartState (Or.inl hstart)
    exact (endTurn_idle _ hopen).2
  · intro evs1 evs2 hg hp hc
    obtain ⟨hg1, hgrest⟩ :=
      cancelRequestsGuarded_append evs1 (.promptAck :: evs2) turnStartState hg
    have hInv1 := runTurnMid_inv evs1 turnStartState hInv0a hInv0b hg1
    have hac0 : (runTurnMid turnStartState evs1).adapterCancels = 0 :=
      hInv1.1 hp
    rw [cancelRequestsGuarded, Bool.and_eq_true] at hgrest
    obtain ⟨_, hg2⟩ := hgrest
    have hdel := onPromptActive_delivers (runTurnMid turnStartState evs1) hp hc
    have hackOne :
        (turnMidStep (runTurnMid turnStartState evs1) .promptAck).adapterCancels
          = 1 := by
      show (onPromptActive (runTurnMid turnStartState evs1)).adapterCancels = 1
      rw [hdel.1, hac0]
    have hInvA := turnMidStep_inv (runTurnMid turnStartState evs1) .promptAck
      hInv1.1 hInv1.2 (by intro h; simp at h)
    have hrun : runTurnMid turnStartState (evs1 ++ .promptAck :: evs2) =
        runTurnMid
          (turnMidStep (runTurnMid turnStartState evs1) .promptAck) evs2 := by
      rw [runTurnMid_append]
      rfl
    have hle := (runTurnMid_inv evs2 _ hInvA.1 hInvA.2 hg2).2
    have hmono := runTurnMid_cancels_mono evs2
      (turnMidStep (runTurnMid turnStartState evs1) .promptAck)
    rw [hrun]
    omega
  · intro s c hp hcpa
    obtain ⟨lc, pc, hcf, pa, cr, ac⟩ := s
    obtain ⟨cpa, ccr⟩ := c
    simp_all [onClientAvailable, QueueOwnerTurnController.setActiveController,
      QueueOwnerTurnController.applyPendingCancel,
      QueueOwnerTurnController.hasActivePrompt]
  · intro s hp ha
    simp [QueueOwnerTurnController.applyPendingCancel, hp, ha]
  · intro s hp ha hcl
    obtain ⟨lc, pc, hcf, pa, cr, ac⟩ := s
    cases lc <;> cases hcf <;> cases pa <;>
      simp_all [cancelPromptHandler, QueueOwnerTurnController.requestCancel,
        QueueOwnerTurnController.applyPendingCancel,
        QueueOwnerTurnController.hasActivePrompt]

/-- Witness for `deferred_cancel_exactly_once`: a cancel accepted during
`starting` with the controller installed is delivered exactly once when the
adapter acknowledges. -/
theorem deferred_cancel_exactly_once_witness :
    (runTurnMid turnStartState
      ([.clientAvailable ⟨false, true⟩, .cancelRequest] ++
        .promptAck :: [])).adapterCancels = 1 :=
  deferred_cancel_exactly_once.2.2.1
    [.clientAvailable ⟨false, true⟩, .cancelRequest] []
    (by decide) (by decide) (by decide)

/-- Unfolding one step of the submit event fold. -/
theorem submitFold_cons (wfc : Bool) (rid : Nat) (st : SubmitClientState)
    (e : QueueSocketEvent) (evs : List QueueSocketEvent) :
    submitFold wfc rid st (e :: evs) =
      submitFold wfc rid (submitStep wfc rid st e) evs := rfl

/-- Once the promise is settled, later socket events change nothing. -/
theorem submitFold_settled (wfc : Bool) (rid : Nat)
    (evs : List QueueSocketEvent) :
    ∀ st : SubmitClientState, st.settled.isSome →
      submitFold wfc rid st evs = st := by
  induction evs with
  | nil => intro st _; rfl
  | cons e rest ih =>
    intro st h
    rw [submitFold_cons]
    have hstep : submitStep wfc rid st e = st := by
      cases e <;> simp [submitStep, h]
    rw [hstep]
    exact ih st h

/-- A rejected promise can never be observed as resolved. -/
theorem final_not_resolved_of_reject (wfc : Bool) (rid : Nat)
    (rest : List QueueSocketEvent) (st : SubmitClientState)
    (e : SubmitReject) (r : PromptResultPayload) :
    (submitFold wfc rid { st with settled := some (.rejected e) }
        rest).settled = some (.resolved (.result r)) → False := by
  intro h
  rw [submitFold_settled wfc rid rest _ (by simp)] at h
  simp at h

/-- Counting `onDone` calls across an appended block. -/
theorem countOnDone_append (l1 l2 : List FormatterCall) :
    countOnDone (l1 ++ l2) = countOnDone l1 + countOnDone l2 := by
  simp [countOnDone, List.countP_append]

/-- Main counting induction for `submitToQueueOwner` with
`waitForCompletion`: starting unsettled with a done budget of one (counting a
done already seen), a run that resolves with a `result` adds exactly one
`onDone` call when none was seen yet, and none when one was. -/
theorem submit_onDone_aux (rid : Nat) (r : PromptResultPayload) :
    ∀ (evs : List QueueSocketEvent) (st : SubmitClientState),
      st.settled = none →
      countDoneMsgs evs + (if st.sawDone then 1 else 0) ≤ 1 →
      (submitFold true rid st evs).settled = some (.resolved (.result r)) →
      countOnDone (submitFold true rid st evs).calls =
        countOnDone st.calls + (if st.sawDone then 0 else 1) := by
  intro evs
  induction evs with
  | nil =>
    intro st hnone _ hres
    rw [submitFold] at hres
    simp only [List.foldl_nil] at hres
    rw [hnone] at hres
    cases hres
  | cons ev rest ih =>
    intro st hnone hbudget hres
    have hnotsome : st.settled.isSome = false := by rw [hnone]; rfl
    rw [submitFold_cons] at hres ⊢
    cases ev with
    | errorEvt =>
      have hstep : submitStep true rid st .errorEvt =
          { st with settled := some (.rejected .socketError) } := by
        simp [submitStep, hnotsome, finishReject, hnone]
      rw [hstep] at hres
      exact absurd hres (fun h =>
        final_not_resolved_of_reject true rid rest st _ r h)
    | closeEvt =>
      by_cases hack : st.acknowledged = true
      · have hstep : submitStep true rid st .closeEvt =
            { st with settled := some (.rejected
              (.connectionError "QUEUE_DISCONNECTED_BEFORE_COMPLETION" true)) } := by
          simp [submitStep, hnotsome, finishReject, hnone, hack]
        rw [hstep] at hres
        exact absurd hres (fun h =>
          final_not_resolved_of_reject true rid rest st _ r h)
      · have hstep : submitStep true rid st .closeEvt =
            { st with settled := some (.rejected
              (.connectionError "QUEUE_DISCONNECTED_BEFORE_ACK" true)) } := by
          simp [submitStep, hnotsome, finishReject, hnone, hack]
        rw [hstep] at hres
        exact absurd hres (fun h =>
          final_not_resolved_of_reject true rid rest st _ r h)
    | line l =>
      have hbudget2 : countDoneMsgs rest +
          (if st.sawDone then 1 else 0) +
          (if isDoneLine (.line l) then 1 else 0) ≤ 1 := by
        have : countDoneMsgs (.line l :: rest) =
            countDoneMsgs rest + (if isDoneLine (.line l) then 1 else 0) := by
          simp [countDoneMsgs, List.countP_cons]
        omega
      cases l with
      | invalidJson =>
        have hstep : submitStep true rid st (.line .invalidJson) =
            { st with settled := some (.rejected
              (.protocolError "QUEUE_PROTOCOL_INVALID_JSON" true)) } := by
          simp [submitStep, hnotsome, processLine, finishReject, hnone]
        rw [hstep] at hres
        exact absurd hres (fun h =>
          final_not_resolved_of_reject true rid rest st _ r h)
      | unparsable =>
        have hstep : submitStep true rid st (.line .unparsable) =
            { st with settled := some (.rejected
              (.protocolError "QUEUE_PROTOCOL_MALFORMED_MESSAGE" true)) } := by
          simp [submitStep, hnotsome, processLine, finishReject, hnone]
        rw [hstep] at hres
        exact absurd hres (fun h =>
          final_not_resolved_of_reject true rid rest st _ r h)
      | msg mrid body =>
        by_cases hm : mrid = rid
        · subst hm
          cases body with
          | accepted =>
            have hstep : submitStep true mrid st (.line (.msg mrid .accepted)) =
                { st with acknowledged := true,
                          calls := st.calls ++ [.setContext] } := by
              simp [submitStep, hnotsome, processLine]
            rw [hstep] at hres ⊢
            have := ih { st with acknowledged := true,
                                 calls := st.calls ++ [.setContext] }
              (by simpa using hnone) (by simpa using hbudget2) hres
            rw [this]
            simp [countOnDone_append, countOnDone, isOnDoneCall]
          | errorMsg p =>
            have hstep : submitStep true mrid st (.line (.msg mrid (.errorMsg p))) =
                { st with
                    calls := st.calls ++ [.setContext, .onError p, .flushOut],
                    settled := some (.rejected (.ownerError p)) } := by
              simp [submitStep, hnotsome, processLine, finishReject, hnone]
            rw [hstep] at hres
            exact absurd hres (fun h =>
              final_not_resolved_of_reject true mrid rest
                { st with calls := st.calls ++ [.setContext, .onError p, .flushOut] }
                _ r h)
          | sessionUpdate n =>
            by_cases hack : st.acknowledged = true
            · have hstep :
                  submitStep true mrid st (.line (.msg mrid (.sessionUpdate n))) =
                  { st with calls := st.calls ++ [.onSessionUpdate n] } := by
                simp [submitStep, hnotsome, processLine, hack]
              rw [hstep] at hres ⊢
              have := ih { st with calls := st.calls ++ [.onSessionUpdate n] }
                (by simpa using hnone) (by simpa using hbudget2) hres
              rw [this]
              simp [countOnDone_append, countOnDone, isOnDoneCall]
            · have hstep :
                  submitStep true mrid st (.line (.msg mrid (.sessionUpdate n))) =
                  { st with settled := some (.rejected
                    (.connectionError "QUEUE_ACK_MISSING" true)) } := by
                simp [submitStep, hnotsome, processLine, hack, finishReject, hnone]
              rw [hstep] at hres
              exact absurd hres (fun h =>
                final_not_resolved_of_reject true mrid rest st _ r h)
          | clientOperation op =>
            by_cases hack : st.acknowledged = true
            · have hstep :
                  submitStep true mrid st (.line (.msg mrid (.clientOperation op))) =
                  { st with calls := st.calls ++ [.onClientOperation op] } := by
                simp [submitStep, hnotsome, processLine, hack]
              rw [hstep] at hres ⊢
              have := ih { st with calls := st.calls ++ [.onClientOperation op] }
                (by simpa using hnone) (by simpa using hbudget2) hres
              rw [this]
              simp [countOnDone_append, countOnDone, isOnDoneCall]
            · have hstep :
                  submitStep true mrid st (.line (.msg mrid (.clientOperation op))) =
                  { st with settled := some (.rejected
                    (.connectionError "QUEUE_ACK_MISSING" true)) } := by
                simp [submitStep, hnotsome, processLine, hack, finishReject, hnone]
              rw [hstep] at hres
              exact absurd hres (fun h =>
                final_not_resolved_of_reject true mrid rest st _ r h)
          | done sr =>
            by_cases hack : st.acknowledged = true
            · have hstep :
                  submitStep true mrid st (.line (.msg mrid (.done sr))) =
                  { st with sawDone := true,
                            calls := st.calls ++ [.onDone sr] } := by
                simp [submitStep, hnotsome, processLine, hack]
              have hsd : st.sawDone = false := by
                by_contra hsd
                have hdl : isDoneLine (.line (.msg mrid (.done sr))) = true := rfl
                simp only [Bool.not_eq_false] at hsd
                rw [hdl, hsd] at hbudget2
                simp at hbudget2
              rw [hstep] at hres ⊢
              have := ih { st with sawDone := true,
                                   calls := st.calls ++ [.onDone sr] }
                (by simpa using hnone)
                (by
                  have : isDoneLine (.line (.msg mrid (.done sr))) = true := rfl
                  rw [this, hsd] at hbudget2
                  simpa using hbudget2) hres
              rw [this]
              simp [hsd, countOnDone_append, countOnDone, isOnDoneCall]
            · have hstep :
                  submitStep true mrid st (.line (.msg mrid (.done sr))) =
                  { st with settled := some (.rejected
                    (.connectionError "QUEUE_ACK_MISSING" true)) } := by
                simp [submitStep, hnotsome, processLine, hack, finishReject, hnone]
              rw [hstep] at hres
              exact absurd hres (fun h =>
                final_not_resolved_of_reject true mrid rest st _ r h)
          | result r2 =>
            by_cases hack : st.acknowledged = true
            · by_cases hsd : st.sawDone = true
              · have hstep :
                    submitStep true mrid st (.line (.msg mrid (.result r2))) =
                    { st with calls := st.calls ++ [.flushOut],
                              settled := some (.resolved (.result r2)) } := by
                  simp [submitStep, hnotsome, processLine, hack, hsd,
                    finishResolve, hnone]
                rw [hstep] at hres ⊢
                rw [submitFold_settled true mrid rest _ (by simp)] at hres ⊢
                simp [hsd, countOnDone_append, countOnDone, isOnDoneCall]
              · have hstep :
                    submitStep true mrid st (.line (.msg mrid (.result r2))) =
                    { st with
                        calls := (st.calls ++ [.onDone r2.stopReason]) ++ [.flushOut],
                        settled := some (.resolved (.result r2)) } := by
                  simp [submitStep, hnotsome, processLine, hack, hsd,
                    finishResolve, hnone]
                rw [hstep] at hres ⊢
                rw [submitFold_settled true mrid rest _ (by simp)] at hres ⊢
                simp [hsd, countOnDone_append, countOnDone, isOnDoneCall]
            · have hstep :
                  submitStep true mrid st (.line (.msg mrid (.result r2))) =
                  { st with settled := some (.rejected
                    (.connectionError "QUEUE_ACK_MISSING" true)) } := by
                simp [submitStep, hnotsome, processLine, hack, finishReject, hnone]
              rw [hstep] at hres
              exact absurd hres (fun h =>
                final_not_resolved_of_reject true mrid rest st _ r h)
          | controlResult =>
            by_cases hack : st.acknowledged = true
            · have hstep :
                  submitStep true mrid st (.line (.msg mrid .controlResult)) =
                  { st with settled := some (.rejected
                    (.protocolError "QUEUE_PROTOCOL_UNEXPECTED_RESPONSE" true)) } := by
                simp [submitStep, hnotsome, processLine, hack, finishReject, hnone]
              rw [hstep] at hres
              exact absurd hres (fun h =>
                final_not_resolved_of_reject true mrid rest st _ r h)
            · have hstep :
                  submitStep true mrid st (.line (.msg mrid .controlResult)) =
                  { st with settled := some (.rejected
                    (.connectionError "QUEUE_ACK_MISSING" true)) } := by
                simp [submitStep, hnotsome, processLine, hack, finishReject, hnone]
              rw [hstep] at hres
              exact absurd hres (fun h =>
                final_not_resolved_of_reject true mrid rest st _ r h)
        · have hstep : submitStep true rid st (.line (.msg mrid body)) =
              { st with settled := some (.rejected
                (.protocolError "QUEUE_PROTOCOL_MALFORMED_MESSAGE" true)) } := by
            simp [submitStep, hnotsome, processLine, hm, finishReject, hnone]
          rw [hstep] at hres
          exact absurd hres (fun h =>
            final_not_resolved_of_reject true rid rest st _ r h)

/-- C10: for a `waitForCompletion` prompt submission whose trace (with at
most one `done` message, as the owner protocol guarantees) resolves with a
`result`, the formatter's `onDone` is called exactly once before resolution;
a `done` message triggers `onDone(stopReason)`, and a `result` without a
preceding `done` makes the client call `onDone(result.stopReason)` itself
before resolving. -/
theorem onDone_exactly_once_on_success :
    (∀ (rid : Nat) (r : PromptResultPayload) (evs : List QueueSocketEvent),
      countDoneMsgs evs ≤ 1 →
      (submitToQueueOwner true rid evs).settled =
        some (.resolved (.result r)) →
      countOnDone (submitToQueueOwner true rid evs).calls = 1) ∧
    (∀ (rid : Nat) (st : SubmitClientState) (sr : String),
      st.settled = none → st.acknowledged = true →
      submitStep true rid st (.line (.msg rid (.done sr))) =
        { st with sawDone := true, calls := st.calls ++ [.onDone sr] }) ∧
    (∀ (rid : Nat) (st : SubmitClientState) (r : PromptResultPayload),
      st.settled = none → st.acknowledged = true → st.sawDone = false →
      submitStep true rid st (.line (.msg rid (.result r))) =
        { st with
            calls := (st.calls ++ [.onDone r.stopReason]) ++ [.flushOut],
            settled := some (.resolved (.result r)) }) := by
  refine ⟨?_, ?_, ?_⟩
  · intro rid r evs hcount hres
    have hnone : submitInitState.settled = none := rfl
    have hbudget : countDoneMsgs evs +
        (if submitInitState.sawDone then 1 else 0) ≤ 1 := by
      simpa [submitInitState] using hcount
    have := submit_onDone_aux rid r evs submitInitState hnone hbudget hres
    rw [submitToQueueOwner] at *
    rw [this]
    simp [submitInitState, countOnDone, isOnDoneCall]
  · intro rid st sr hnone hack
    have hnotsome : st.settled.isSome = false := by rw [hnone]; rfl
    simp [submitStep, hnotsome, processLine, hack]
  · intro rid st r hnone hack hsd
    have hnotsome : st.settled.isSome = false := by rw [hnone]; rfl
    simp [submitStep, hnotsome, processLine, hack, hsd, finishResolve, hnone]

/-- Witness for `onDone_exactly_once_on_success`: an accepted prompt whose
stream carries one `done` and one `result` yields exactly one `onDone`. -/
theorem onDone_exactly_once_on_success_witness :
    countOnDone (submitToQueueOwner true 0
      [.line (.msg 0 .accepted), .line (.msg 0 (.done "end_turn")),
       .line (.msg 0 (.result ⟨"end_turn"⟩))]).calls = 1 :=
  onDone_exactly_once_on_success.1 0 ⟨"end_turn"⟩
    [.line (.msg 0 .accepted), .line (.msg 0 (.done "end_turn")),
     .line (.msg 0 (.result ⟨"end_turn"⟩))]
    (by decide) (by decide)

/-- Appending a sufficiently late spawn time keeps the gaps valid. -/
theorem spawnGapsOk_append :
    ∀ (l : List Nat) (p t : Nat), spawnGapsOk p l →
      l.getLast?.getD p + QUEUE_OWNER_RESPAWN_BACKOFF_MS ≤ t →
      spawnGapsOk p (l ++ [t]) := by
  intro l
  induction l with
  | nil =>
    intro p t _ hlast
    simp only [List.nil_append]
    rw [spawnGapsOk]
    refine ⟨?_, trivial⟩
    simpa using hlast
  | cons a l ih =>
    intro p t hok hlast
    rw [spawnGapsOk] at hok
    rw [List.cons_append, spawnGapsOk]
    refine ⟨hok.1, ?_⟩
    apply ih a t hok.2
    cases l with
    | nil => simpa using hlast
    | cons b l2 => simpa using hlast

/-- Well-formedness of the spawn loop state is preserved: the spawn times
keep respawn-backoff gaps, the last spawn time matches `lastSpawnAttemptAt`,
and `lastSpawnAttemptAt` never exceeds the clock. -/
theorem spawnGo_wf (trace : List (SpawnAttemptOutcome × Nat)) :
    ∀ (deadline : Nat) (st : SpawnLoopState),
      spawnGapsOk 0 st.spawnTimes →
      st.spawnTimes.getLast?.getD 0 = st.lastSpawnAttemptAt →
      st.lastSpawnAttemptAt ≤ st.timeMs →
      spawnGapsOk 0 (sendViaDetachedQueueOwnerGo deadline trace st).2.spawnTimes ∧
      (sendViaDetachedQueueOwnerGo deadline trace st).2.spawnTimes.getLast?.getD 0 =
        (sendViaDetachedQueueOwnerGo deadline trace st).2.lastSpawnAttemptAt ∧
      (sendViaDetachedQueueOwnerGo deadline trace st).2.lastSpawnAttemptAt ≤
        (sendViaDetachedQueueOwnerGo deadline trace st).2.timeMs := by
  induction trace with
  | nil => intro deadline st h1 h2 h3; exact ⟨h1, h2, h3⟩
  | cons step rest ih =>
    intro deadline st h1 h2 h3
    obtain ⟨outcome, dur⟩ := step
    cases outcome with
    | ok r =>
      simp only [sendViaDetachedQueueOwnerGo]
      exact ⟨h1, h2, by omega⟩
    | errOther e =>
      simp only [sendViaDetachedQueueOwnerGo]
      exact ⟨h1, h2, by omega⟩
    | errNotAccepting =>
      simp only [sendViaDetachedQueueOwnerGo]
      by_cases hd : deadline ≤ st.timeMs + dur
      · rw [if_pos hd]
        exact ⟨h1, h2, by simp; omega⟩
      · rw [if_neg hd]
        exact ih deadline _ h1 h2 (by simp; omega)
    | noOwner =>
      simp only [sendViaDetachedQueueOwnerGo]
      by_cases hd : deadline ≤ st.timeMs + dur
      · rw [if_pos hd]
        exact ⟨h1, h2, by simp; omega⟩
      · rw [if_neg hd]
        by_cases hb : QUEUE_OWNER_RESPAWN_BACKOFF_MS ≤
            st.timeMs + dur - st.lastSpawnAttemptAt
        · rw [if_pos hb]
          apply ih
          · apply spawnGapsOk_append _ _ _ h1
            rw [h2]
            simp only [QUEUE_OWNER_RESPAWN_BACKOFF_MS] at hb ⊢
            omega
          · simp
          · simp
        · rw [if_neg hb]
          exact ih deadline _ h1 h2 (by simp; omega)

/-- The deadline-expiry error is only ever produced at or after the deadline. -/
theorem spawnGo_timeout (trace : List (SpawnAttemptOutcome × Nat)) :
    ∀ (deadline : Nat) (st : SpawnLoopState),
      (sendViaDetachedQueueOwnerGo deadline trace st).1 =
        .timedOutNotAccepting →
      deadline ≤ (sendViaDetachedQueueOwnerGo deadline trace st).2.timeMs := by
  induction trace with
  | nil =>
    intro deadline st h
    rw [sendViaDetachedQueueOwnerGo] at h
    cases h
  | cons step rest ih =>
    intro deadline st h
    obtain ⟨outcome, dur⟩ := step
    cases outcome with
    | ok r => rw [sendViaDetachedQueueOwnerGo] at h; cases h
    | errOther e => rw [sendViaDetachedQueueOwnerGo] at h; cases h
    | errNotAccepting =>
      rw [sendViaDetachedQueueOwnerGo] at h ⊢
      by_cases hd : deadline ≤ st.timeMs + dur
      · rw [if_pos hd] at h ⊢
        simpa using hd
      · rw [if_neg hd] at h ⊢
        exact ih deadline _ h
    | noOwner =>
      rw [sendViaDetachedQueueOwnerGo] at h ⊢
      by_cases hd : deadline ≤ st.timeMs + dur
      · rw [if_pos hd] at h ⊢
        simpa using hd
      · rw [if_neg hd] at h ⊢
        exact ih deadline _ h

/-- Counterexample to C5 as stated: with the loop entered at time 1000 and
six consecutive `undefined` results, the code spawns a second detached owner
exactly 250 ms after the first spawn attempt — not *more than* 250 ms after
it, as the claim requires. -/
theorem spawn_backoff_boundary_counterexample :
    (sendViaDetachedQueueOwner 1000
      (List.replicate 6 (.noOwner, 0))).2.spawnTimes = [1000, 1250] ∧
    ¬ (1000 + QUEUE_OWNER_RESPAWN_BACKOFF_MS < 1250) := by
  constructor
  · decide
  · decide

/-- C5 (amended: a spawn requires the previous spawn attempt to be at least
250 ms old, not strictly more): the loop runs against the deadline
`t0 + 10000` fixed at entry; a truthy submit returns it; a foreign error
propagates immediately; `QUEUE_NOT_ACCEPTING_REQUESTS` continues after a
50 ms sleep while before the deadline and raises the deadline error
otherwise, as does an `undefined` result at the deadline; an `undefined`
result before the deadline spawns exactly when the previous spawn attempt is
at least 250 ms old and sleeps 50 ms; consecutive spawns stay at least 250 ms
apart; and the deadline error is only raised at or after the deadline. -/
theorem sendViaDetachedQueueOwner_loop_spec :
    (∀ (t0 : Nat) (trace : List (SpawnAttemptOutcome × Nat)),
      sendViaDetachedQueueOwner t0 trace =
        sendViaDetachedQueueOwnerGo (t0 + QUEUE_OWNER_STARTUP_TIMEOUT_MS) trace
          { timeMs := t0, lastSpawnAttemptAt := 0, spawnTimes := [] }) ∧
    (∀ (deadline dur : Nat) (r : Nat) (rest : List (SpawnAttemptOutcome × Nat))
      (st : SpawnLoopState),
      sendViaDetachedQueueOwnerGo deadline ((.ok r, dur) :: rest) st =
        (.ok r, { st with timeMs := st.timeMs + dur })) ∧
    (∀ (deadline dur e : Nat) (rest : List (SpawnAttemptOutcome × Nat))
      (st : SpawnLoopState),
      sendViaDetachedQueueOwnerGo deadline ((.errOther e, dur) :: rest) st =
        (.propagated e, { st with timeMs := st.timeMs + dur })) ∧
    (∀ (deadline dur : Nat) (rest : List (SpawnAttemptOutcome × Nat))
      (st : SpawnLoopState), st.timeMs + dur < deadline →
      sendViaDetachedQueueOwnerGo deadline ((.errNotAccepting, dur) :: rest) st =
        sendViaDetachedQueueOwnerGo deadline rest
          { st with timeMs := st.timeMs + dur + QUEUE_CONNECT_RETRY_MS }) ∧
    (∀ (deadline dur : Nat) (rest : List (SpawnAttemptOutcome × Nat))
      (st : SpawnLoopState), deadline ≤ st.timeMs + dur →
      sendViaDetachedQueueOwnerGo deadline ((.errNotAccepting, dur) :: rest) st =
        (.timedOutNotAccepting, { st with timeMs := st.timeMs + dur }) ∧
      sendViaDetachedQueueOwnerGo deadline ((.noOwner, dur) :: rest) st =
        (.timedOutNotAccepting, { st with timeMs := st.timeMs + dur })) ∧
    (∀ (deadline dur : Nat) (rest : List (SpawnAttemptOutcome × Nat))
      (st : SpawnLoopState), st.timeMs + dur < deadline →
      QUEUE_OWNER_RESPAWN_BACKOFF_MS ≤ st.timeMs + dur - st.lastSpawnAttemptAt →
      sendViaDetachedQueueOwnerGo deadline ((.noOwner, dur) :: rest) st =
        sendViaDetachedQueueOwnerGo deadline rest
          { timeMs := st.timeMs + dur + QUEUE_CONNECT_RETRY_MS,
            lastSpawnAttemptAt := st.timeMs + dur,
            spawnTimes := st.spawnTimes ++ [st.timeMs + dur] }) ∧
    (∀ (deadline dur : Nat) (rest : List (SpawnAttemptOutcome × Nat))
      (st : SpawnLoopState), st.timeMs + dur < deadline →
      st.timeMs + dur - st.lastSpawnAttemptAt < QUEUE_OWNER_RESPAWN_BACKOFF_MS →
      sendViaDetachedQueueOwnerGo deadline ((.noOwner, dur) :: rest) st =
        sendViaDetachedQueueOwnerGo deadline rest
          { st with timeMs := st.timeMs + dur + QUEUE_CONNECT_RETRY_MS }) ∧
    (∀ (t0 : Nat) (trace : List (SpawnAttemptOutcome × Nat)),
      spawnGapsOk 0 (sendViaDetachedQueueOwner t0 trace).2.spawnTimes) ∧
    (∀ (t0 : Nat) (trace : List (SpawnAttemptOutcome × Nat)),
      (sendViaDetachedQueueOwner t0 trace).1 = .timedOutNotAccepting →
      t0 + QUEUE_OWNER_STARTUP_TIMEOUT_MS ≤
        (sendViaDetachedQueueOwner t0 trace).2.timeMs) := by
  refine ⟨fun _ _ => rfl, ?_, ?_, ?_, ?_, ?_, ?_, ?_, ?_⟩
  · intro deadline dur r rest st
    rw [sendViaDetachedQueueOwnerGo]
  · intro deadline dur e rest st
    rw [sendViaDetachedQueueOwnerGo]
  · intro deadline dur rest st h
    rw [sendViaDetachedQueueOwnerGo, if_neg (by omega)]
  · intro deadline dur rest st h
    constructor
    · rw [sendViaDetachedQueueOwnerGo, if_pos h]
    · rw [sendViaDetachedQueueOwnerGo, if_pos h]
  · intro deadline dur rest st h hb
    simp only [sendViaDetachedQueueOwnerGo]
    rw [if_neg (by omega), if_pos hb]
  · intro deadline dur rest st h hb
    simp only [sendViaDetachedQueueOwnerGo]
    rw [if_neg (by omega), if_neg (by omega)]
  · intro t0 trace
    exact (spawnGo_wf trace (t0 + QUEUE_OWNER_STARTUP_TIMEOUT_MS)
      { timeMs := t0, lastSpawnAttemptAt := 0, spawnTimes := [] }
      trivial rfl (Nat.zero_le t0)).1
  · intro t0 trace h
    exact spawnGo_timeout trace (t0 + QUEUE_OWNER_STARTUP_TIMEOUT_MS) _ h

/-- Witness for `sendViaDetachedQueueOwner_loop_spec`: a not-accepting error
past the deadline raises the deadline error. -/
theorem sendViaDetachedQueueOwner_loop_spec_witness :
    sendViaDetachedQueueOwnerGo 11000 [(.errNotAccepting, 10500)]
      { timeMs := 1000, lastSpawnAttemptAt := 0, spawnTimes := [] } =
      (.timedOutNotAccepting,
        { timeMs := 11500, lastSpawnAttemptAt := 0, spawnTimes := [] }) :=
  (sendViaDetachedQueueOwner_loop_spec.2.2.2.2.1 11000 10500 []
    { timeMs := 1000, lastSpawnAttemptAt := 0, spawnTimes := [] }
    (by norm_num)).1

end Acpx
